import Mathlib

/-!
Verification development for the auther TOTP manager (src/main.go).

The program stores named TOTP secrets in a JSON file (`totp.json`) and
derives RFC-4226/RFC-6238 one-time codes on demand, over a CLI and a
small HTTP API.  The store operations (`loadData`, `saveData`,
`createEntry`, `removeEntry`, `getCode`, and the HTTP handlers) are
embedded here directly from src/main.go.  The passcode engine itself
(base32 decoding, HMAC-SHA1, dynamic truncation) lives in the external
`pquerna/otp` library, which is not part of the repository source; it is
modelled from the specification (sections 4.1-4.3), which spells the
algorithm out in full.

Bytes are represented as `Nat` values below 256, 32-bit words as `Nat`
values below `2 ^ 32`, with explicit `% 2 ^ 32` where overflow matters.
-/

set_option maxRecDepth 100000

namespace Auther

/-- Encode a natural number as `len` bytes, most-significant byte first. -/
def toBytesBE (len n : Nat) : List Nat :=
  (List.range len).map (fun i => (n >>> (8 * (len - 1 - i))) % 256)

/-- Interpret a byte list as a big-endian unsigned integer. -/
def fromBytesBE (bs : List Nat) : Nat :=
  bs.foldl (fun acc b => acc * 256 + b) 0

/-- Rotate a 32-bit word left by `n` bits. -/
def rotl32 (n x : Nat) : Nat :=
  ((x <<< n) ||| (x >>> (32 - n))) % 2 ^ 32

/-- Modelled from the spec: SHA-1 message padding (the spec fixes the hash
function of the HOTP engine to SHA-1; the implementation delegates to Go
crypto via pquerna/otp, which is not in the repository source).  Appends
0x80, zero bytes up to 56 mod 64, and the 8-byte big-endian bit length. -/
def sha1Pad (msg : List Nat) : List Nat :=
  msg ++ [0x80] ++ List.replicate ((120 - (msg.length + 1) % 64) % 64) 0
      ++ toBytesBE 8 (8 * msg.length)

/-- Split a byte list into chunks of 64, with explicit fuel so that the
definition is structurally recursive (the fuel `l.length` always
suffices because every step consumes 64 > 0 bytes). -/
def toBlocksFuel : Nat → List Nat → List (List Nat)
  | 0, _ => []
  | _, [] => []
  | fuel + 1, l => l.take 64 :: toBlocksFuel fuel (l.drop 64)

/-- Split a byte list into 64-byte blocks. -/
def toBlocks (l : List Nat) : List (List Nat) :=
  toBlocksFuel l.length l

/-- Read the sixteen 32-bit big-endian words of one 64-byte block. -/
def blockWords (block : List Nat) : List Nat :=
  (List.range 16).map (fun i => fromBytesBE ((block.drop (4 * i)).take 4))

/-- Modelled from the spec: the SHA-1 message schedule in reverse order
(most recent word first), so that the words w[t-3], w[t-8], w[t-14] and
w[t-16] that feed the next word sit at positions 2, 7, 13 and 15. -/
def sha1ScheduleRev (ws : List Nat) : List Nat :=
  (List.range 64).foldl
    (fun racc _ =>
      rotl32 1 ((((racc.getD 2 0) ^^^ (racc.getD 7 0)) ^^^
        (racc.getD 13 0)) ^^^ (racc.getD 15 0)) :: racc)
    ws.reverse

/-- Modelled from the spec: the SHA-1 message schedule, extending the 16
block words to 80 words. -/
def sha1Schedule (ws : List Nat) : List Nat :=
  (sha1ScheduleRev ws).reverse

/-- SHA-1 round function, by round index. -/
def sha1F (t b c d : Nat) : Nat :=
  if t < 20 then (b &&& c) ||| ((b ^^^ 0xFFFFFFFF) &&& d)
  else if t < 40 then (b ^^^ c) ^^^ d
  else if t < 60 then ((b &&& c) ||| (b &&& d)) ||| (c &&& d)
  else (b ^^^ c) ^^^ d

/-- SHA-1 round constant, by round index. -/
def sha1K (t : Nat) : Nat :=
  if t < 20 then 0x5A827999
  else if t < 40 then 0x6ED9EBA1
  else if t < 60 then 0x8F1BBCDC
  else 0xCA62C1D6

/-- One SHA-1 round: update the five-word working state. -/
def sha1Round (w t : Nat) : Nat × Nat × Nat × Nat × Nat → Nat × Nat × Nat × Nat × Nat :=
  fun (a, b, c, d, e) =>
    ((rotl32 5 a + sha1F t b c d + e + sha1K t + w) % 2 ^ 32, a, rotl32 30 b, c, d)

/-- SHA-1 compression of one 64-byte block into the running hash state. -/
def sha1Compress (h : Nat × Nat × Nat × Nat × Nat) (block : List Nat) :
    Nat × Nat × Nat × Nat × Nat :=
  let ws := sha1Schedule (blockWords block)
  let (h0, h1, h2, h3, h4) := h
  let (a, b, c, d, e) :=
    (ws.foldl (fun st w => (sha1Round w st.2 st.1, st.2 + 1)) ((h0, h1, h2, h3, h4), 0)).1
  ((h0 + a) % 2 ^ 32, (h1 + b) % 2 ^ 32, (h2 + c) % 2 ^ 32,
    (h3 + d) % 2 ^ 32, (h4 + e) % 2 ^ 32)

/-- Modelled from the spec: the SHA-1 hash of a byte sequence, as the
20-byte digest. -/
def sha1 (msg : List Nat) : List Nat :=
  let (h0, h1, h2, h3, h4) :=
    (toBlocks (sha1Pad msg)).foldl sha1Compress
      (0x67452301, 0xEFCDAB89, 0x98BADCFE, 0x10325476, 0xC3D2E1F0)
  toBytesBE 4 h0 ++ toBytesBE 4 h1 ++ toBytesBE 4 h2 ++ toBytesBE 4 h3 ++ toBytesBE 4 h4

/-- Modelled from the spec: HMAC keyed by `key` over `msg` using SHA-1
(block size 64): keys longer than one block are hashed first, then padded
with zeros, and combined with the 0x36/0x5C inner and outer pads. -/
def hmacSha1 (key msg : List Nat) : List Nat :=
  let k := if 64 < key.length then sha1 key else key
  let k64 := k ++ List.replicate (64 - k.length) 0
  sha1 ((k64.map (fun b => b ^^^ 0x5C)) ++ sha1 ((k64.map (fun b => b ^^^ 0x36)) ++ msg))

/-- Modelled from the spec (4.2 step 3): RFC-4226 dynamic truncation.  The
offset is the low nibble of the last digest byte; the four bytes starting
there, with the top bit of the first masked to zero, form a big-endian
31-bit integer. -/
def dynamicTruncate (mac : List Nat) : Nat :=
  let offset := (mac.getD (mac.length - 1) 0) &&& 0x0F
  fromBytesBE [(mac.getD offset 0) &&& 0x7F, mac.getD (offset + 1) 0,
    mac.getD (offset + 2) 0, mac.getD (offset + 3) 0]

/-- Left-pad a string with zeros to `digits` characters, as Go renders the
code with fmt.Sprintf and a zero-padded width. -/
def zeroPad (digits : Nat) (s : String) : String :=
  String.mk (List.replicate (digits - s.length) '0') ++ s

/-- Modelled from the spec (4.2): `HOTPEngine.computeCode` — HMAC-SHA1 over
the 8-byte big-endian counter, dynamic truncation, reduction mod
`10 ^ digits`, zero-padded decimal rendering. -/
def computeCode (key : List Nat) (counter : Nat) (digits : Nat) : String :=
  zeroPad digits (toString (dynamicTruncate (hmacSha1 key (toBytesBE 8 counter)) % 10 ^ digits))

/-- RFC 4226 appendix D reference key, the ASCII bytes of the string of
digits 1234567890 repeated twice. -/
def rfc4226Key : List Nat :=
  [49, 50, 51, 52, 53, 54, 55, 56, 57, 48, 49, 50, 51, 52, 53, 54, 55, 56, 57, 48]

/-- Modelled from the spec (4.1): value of one base32 alphabet character
(A-Z, 2-7); `none` for a character outside the alphabet. -/
def base32CharVal (c : Char) : Option Nat :=
  if 'A' ≤ c ∧ c ≤ 'Z' then some (c.toNat - 65)
  else if '2' ≤ c ∧ c ≤ '7' then some (c.toNat - 50 + 26)
  else none

/-- Modelled from the spec (4.1): base32 bit accumulator.  Consumes the
cleaned character list, keeping a buffer of pending bits and emitting a
byte whenever eight or more bits are available; fails on a character
outside the alphabet.  The output length is floor(n*5/8) for n cleaned
characters. -/
def base32DecodeCore : List Char → Nat → Nat → List Nat → Option (List Nat)
  | [], _, _, acc => some acc.reverse
  | c :: rest, buf, bits, acc =>
    match base32CharVal c with
    | none => none
    | some v =>
      let buf2 := buf * 32 + v
      let bits2 := bits + 5
      if 8 ≤ bits2 then
        base32DecodeCore rest (buf2 % 2 ^ (bits2 - 8)) (bits2 - 8)
          (((buf2 >>> (bits2 - 8)) % 256) :: acc)
      else
        base32DecodeCore rest buf2 bits2 acc

/-- Modelled from the spec (4.1): `Base32Codec` decoding.  Upper-cases the
input, strips padding and whitespace, decodes the 5-bit groups, and fails
(`none`, the `DecodeError` of the spec) on a character outside the
alphabet or when the result is zero bytes. -/
def base32Decode (s : String) : Option (List Nat) :=
  let cleaned := (s.toList.map Char.toUpper).filter (fun c => ¬ (c = '=' ∨ c.isWhitespace))
  match base32DecodeCore cleaned 0 0 [] with
  | none => none
  | some bs => if bs = [] then none else some bs

/-- Modelled from the spec (4.3): `TOTPEngine.currentCode` — the HOTP code
for counter floor(unixSeconds/30) with six digits (the single
configuration the program exercises). -/
def currentCode (key : List Nat) (t : Nat) : String :=
  computeCode key (t / 30) 6

/-- Seconds remaining in the current 30-second window, from src/main.go
line 342 (and lines 210, 296): `remaining := 30 - (t.Unix() % 30)`. -/
def secondsRemaining (t : Nat) : Nat :=
  30 - t % 30

/-- Next-window code, from src/main.go lines 345-347: the code generated
at `nextTime := currentTime.Add(remaining seconds)`. -/
def nextCode (key : List Nat) (t : Nat) : String :=
  currentCode key (t + secondsRemaining t)

/-- Modelled from the spec and the pquerna/otp call sites in src/main.go:
`totp.GenerateCode(secret, t)` decodes the stored base32 secret and
computes the six-digit code for counter floor(t/30); an undecodable
secret yields an error (`none`). -/
def totpGenerateCode (secret : String) (t : Nat) : Option String :=
  match base32Decode secret with
  | none => none
  | some key => some (currentCode key t)

/-- One stored entry, from src/main.go lines 18-21: a name and a base32
secret, both JSON strings. -/
structure TOTPEntry where
  name : String
  secret : String
deriving DecidableEq, Repr

/-- The stored collection, from src/main.go lines 23-25. -/
structure TOTPData where
  entries : List TOTPEntry
deriving DecidableEq, Repr

/-- State of the durable storage file `totp.json`.  JSON (de)serialization
is abstracted: the file is absent, holds a well-formed record (the
marshalled form of a `TOTPData`), or exists but cannot be read or parsed
as the record (unreadable or corrupt JSON). -/
inductive FileState
  | absent
  | stored (d : TOTPData)
  | corrupt
deriving DecidableEq, Repr

/-- Result of `loadData`: either the parsed data, or `fatal`, which models
`log.Fatalf` — the process logs the error and terminates. -/
inductive LoadResult
  | ok (d : TOTPData)
  | fatal
deriving DecidableEq, Repr

/-- Load of the durable store, from src/main.go lines 366-385: if the file
is absent (`os.Stat` fails) the zero value `TOTPData{}` is returned; if it
exists it is read and parsed, and any read or parse error goes through
`log.Fatalf`. -/
def loadData : FileState → LoadResult
  | .absent => .ok ⟨[]⟩
  | .stored d => .ok d
  | .corrupt => .fatal

/-- Final file state written by `saveData`, from src/main.go lines
387-396: the marshalled data replaces the file content. -/
def saveData (_fs : FileState) (d : TOTPData) : FileState :=
  .stored d

/-- The file states a reader can observe while `saveData` runs, in order.
`os.WriteFile` (src/main.go line 392) opens the path with
O_WRONLY|O_CREATE|O_TRUNC and then writes the bytes, so between the
truncation and the completed write the file exists but holds none (or a
prefix) of the marshalled record — the `corrupt` state.  No temporary
file or rename is involved. -/
def saveDataTrace (old : FileState) (d : TOTPData) : List FileState :=
  [old, .corrupt, saveData old d]

/-- Outcome of the core `createEntry`, from src/main.go lines 250-263:
`created` (entry appended and saved), `duplicate` (message printed, no
save), or `fatal` (the load terminated the process). -/
inductive CreateOutcome
  | created
  | duplicate
  | fatal
deriving DecidableEq, Repr

/-- Core create operation, from src/main.go lines 250-263: load the data,
scan for an entry with the same name (printing and returning without a
save when found), otherwise append the new entry and save. -/
def createEntry (fs : FileState) (name secret : String) : CreateOutcome × FileState :=
  match loadData fs with
  | .fatal => (.fatal, fs)
  | .ok d =>
    if d.entries.any (fun e => e.name = name) then
      (.duplicate, fs)
    else
      (.created, saveData fs ⟨d.entries ++ [⟨name, secret⟩]⟩)

/-- Outcome of the core `removeEntry`, from src/main.go lines 303-327. -/
inductive RemoveOutcome
  | removed
  | notFound
  | fatal
deriving DecidableEq, Repr

/-- The removal loop of src/main.go lines 307-315 (and 227-236): walk the
entries, keeping every entry whose name differs and flagging `found` when
a name matches. -/
def removeLoop (name : String) : List TOTPEntry → List TOTPEntry × Bool
  | [] => ([], false)
  | e :: rest =>
    let (kept, found) := removeLoop name rest
    if e.name ≠ name then (e :: kept, found) else (kept, true)

/-- Core remove operation, from src/main.go lines 303-327: load, filter
out the matching entries, report not-found without saving when nothing
matched, otherwise save the remainder. -/
def removeEntry (fs : FileState) (name : String) : RemoveOutcome × FileState :=
  match loadData fs with
  | .fatal => (.fatal, fs)
  | .ok d =>
    if (removeLoop name d.entries).2 then
      (.removed, saveData fs ⟨(removeLoop name d.entries).1⟩)
    else
      (.notFound, fs)

/-- An HTTP response: status code and body text. -/
structure HTTPResponse where
  status : Nat
  body : String
deriving DecidableEq, Repr

/-- Response of POST /totps, from src/main.go lines 185-195
(`createEntryHTTP`): a body that fails to decode or has an empty name or
secret yields 400 Invalid input; otherwise `createEntry` runs and the
handler unconditionally writes the 200 success confirmation — it cannot
observe the duplicate outcome.  `none` models the request dying without a
response (the load inside `createEntry` hit `log.Fatalf`). -/
def createEntryHTTP (fs : FileState) (body : Option TOTPEntry) :
    Option HTTPResponse × FileState :=
  match body with
  | none => (some ⟨400, "Invalid input"⟩, fs)
  | some entry =>
    if entry.name = "" ∨ entry.secret = "" then
      (some ⟨400, "Invalid input"⟩, fs)
    else
      match createEntry fs entry.name entry.secret with
      | (.fatal, fs2) => (none, fs2)
      | (_, fs2) =>
        (some ⟨200, "TOTP entry \x27" ++ entry.name ++ "\x27 created successfully.\n"⟩, fs2)

/-- Response of GET /totps/\x7bname\x7d, from src/main.go lines 197-222
(`getCodeHTTP`): find the first entry with the name; 500 when the code
cannot be generated (undecodable secret), otherwise 200 with the code and
`expires_in`; 404 when no entry matches.  The 200 body abstracts the JSON
object `\x7bcode, expires_in\x7d` as its two fields. -/
inductive GetCodeResult
  | ok (code : String) (expiresIn : Nat)
  | errGenerating
  | notFound
  | fatal
deriving DecidableEq, Repr

/-- HTTP status carried by each `GetCodeResult` branch in src/main.go
lines 197-222 (200 implicit on the JSON write, 500 on generation error,
404 on no match; `fatal` never responds). -/
def GetCodeResult.status : GetCodeResult → Nat
  | .ok _ _ => 200
  | .errGenerating => 500
  | .notFound => 404
  | .fatal => 0

/-- Handler of GET /totps/\x7bname\x7d, from src/main.go lines 197-222. -/
def getCodeHTTP (fs : FileState) (name : String) (now : Nat) : GetCodeResult :=
  match loadData fs with
  | .fatal => .fatal
  | .ok d =>
    match d.entries.find? (fun e => e.name = name) with
    | some entry =>
      match totpGenerateCode entry.secret now with
      | none => .errGenerating
      | some code => .ok code (30 - now % 30)
    | none => .notFound

/-- Result of the CLI `getCode`, from src/main.go lines 329-364: the
current code, the seconds remaining, and the next code computed at
`currentTime + remaining`. -/
inductive CodeResult
  | ok (code : String) (remaining : Nat) (next : String)
  | notFound
  | fatal
deriving DecidableEq, Repr

/-- CLI code lookup, from src/main.go lines 329-364.  `fatal` covers both
the load dying and `log.Fatalf` on a generation error. -/
def getCode (fs : FileState) (name : String) (now : Nat) : CodeResult :=
  match loadData fs with
  | .fatal => .fatal
  | .ok d =>
    match d.entries.find? (fun e => e.name = name) with
    | some entry =>
      match totpGenerateCode entry.secret now with
      | none => .fatal
      | some code =>
        let remaining := 30 - now % 30
        match totpGenerateCode entry.secret (now + remaining) with
        | none => .fatal
        | some next => .ok code remaining next
    | none => .notFound

/-- Identifier of one of two concurrent HTTP add requests. -/
inductive Tid
  | a
  | b
deriving DecidableEq, Repr

/-- Progress of one in-flight `createEntry` call (src/main.go lines
250-263) split at its two file accesses: `idle` before `loadData`,
`loaded` holding the snapshot it read, `done` after its save (or after
returning on a duplicate).  The Go server (src/main.go lines 145-151)
runs handlers on independent goroutines with no lock around the
load-mutate-save cycle, so the file accesses of two requests may
interleave arbitrarily. -/
inductive Phase
  | idle
  | loaded (d : TOTPData)
  | done
deriving DecidableEq, Repr

/-- One scheduled step of an in-flight add: an `idle` request performs the
`loadData` of src/main.go line 251 and keeps the snapshot; a `loaded`
request performs the duplicate scan and, when no duplicate is in its
snapshot, the append and `saveData` of lines 260-261. -/
def phaseStep (name secret : String) (p : Phase) (fs : FileState) : Phase × FileState :=
  match p with
  | .idle =>
    match loadData fs with
    | .ok d => (.loaded d, fs)
    | .fatal => (.done, fs)
  | .loaded d =>
    if d.entries.any (fun e => e.name = name) then
      (.done, fs)
    else
      (.done, saveData fs ⟨d.entries ++ [⟨name, secret⟩]⟩)
  | .done => (.done, fs)

/-- Run two concurrent adds — request `a` adding ("a", "sa") and request
`b` adding ("b", "sb") — under a schedule listing which request performs
its next file access at each step. -/
def twoAdds : List Tid → Phase → Phase → FileState → FileState
  | [], _, _, fs => fs
  | .a :: rest, pa, pb, fs =>
    let (pa2, fs2) := phaseStep "a" "sa" pa fs
    twoAdds rest pa2 pb fs2
  | .b :: rest, pa, pb, fs =>
    let (pb2, fs2) := phaseStep "b" "sb" pb fs
    twoAdds rest pa pb2 fs2

/-- Names of the entries of a store. -/
def storeNames (d : TOTPData) : List String :=
  d.entries.map (fun e => e.name)

/-- Uniqueness invariant of the store: no two entries share a name. -/
def namesNodup (d : TOTPData) : Prop :=
  (storeNames d).Nodup

/-- File states reachable from first use (no storage file yet) by the
store operations of src/main.go. -/
inductive Reachable : FileState → Prop
  | init : Reachable .absent
  | add (fs : FileState) (name secret : String) :
      Reachable fs → Reachable (createEntry fs name secret).2
  | remove (fs : FileState) (name : String) :
      Reachable fs → Reachable (removeEntry fs name).2

/-- The removal loop computes the filtered entry list together with the
found flag of the scan. -/
theorem removeLoop_eq (name : String) (l : List TOTPEntry) :
    removeLoop name l =
      (l.filter (fun e => e.name ≠ name), l.any (fun e => e.name = name)) := by
  induction l with
  | nil => rfl
  | cons e rest ih =>
    simp only [removeLoop, ih, List.filter_cons, List.any_cons]
    by_cases h : e.name = name
    · simp [h]
    · simp [h]

/-- Claim C5: `removeEntry` fails with the not-found outcome and leaves
the store unchanged when no entry has the exact name; otherwise it
removes the matching entry and persists the remainder, preserving the
relative order of the other entries (the persisted list is the filter of
the original). -/
theorem removeEntry_not_found_or_filters :
    ∀ (d : TOTPData) (name : String),
      (¬ (∃ e ∈ d.entries, e.name = name) →
        removeEntry (.stored d) name = (.notFound, .stored d)) ∧
      ((∃ e ∈ d.entries, e.name = name) →
        removeEntry (.stored d) name =
          (.removed, .stored ⟨d.entries.filter (fun e => e.name ≠ name)⟩)) := by
  intro d name
  constructor
  · intro h
    have hany : d.entries.any (fun e => e.name = name) = false := by
      simp only [Bool.eq_false_iff, ne_eq, List.any_eq_true, decide_eq_true_eq]
      exact h
    simp [removeEntry, loadData, removeLoop_eq, hany, saveData]
  · intro h
    have hany : d.entries.any (fun e => e.name = name) = true := by
      simp only [List.any_eq_true, decide_eq_true_eq]
      exact h
    simp [removeEntry, loadData, removeLoop_eq, hany, saveData]

/-- Witness for claim C5 at a concrete one-entry store: removal of an
absent name reports not-found and changes nothing; removal of the present
name persists the empty remainder. -/
theorem removeEntry_not_found_or_filters_witness :
    removeEntry (.stored ⟨[⟨"acme", "JBSWY3DPEHPK3PXP"⟩]⟩) "zzz" =
      (.notFound, .stored ⟨[⟨"acme", "JBSWY3DPEHPK3PXP"⟩]⟩) ∧
    removeEntry (.stored ⟨[⟨"acme", "JBSWY3DPEHPK3PXP"⟩]⟩) "acme" =
      (.removed, .stored ⟨[]⟩) := by
  refine ⟨(removeEntry_not_found_or_filters ⟨[⟨"acme", "JBSWY3DPEHPK3PXP"⟩]⟩ "zzz").1
    (by decide), ?_⟩
  have h := (removeEntry_not_found_or_filters ⟨[⟨"acme", "JBSWY3DPEHPK3PXP"⟩]⟩ "acme").2
    ⟨⟨"acme", "JBSWY3DPEHPK3PXP"⟩, by decide, rfl⟩
  simpa using h

/-- Claim C9: name uniqueness is an invariant — every file state reachable
by the store operations from first use loads to a store in which no two
entries share a name. -/
theorem reachable_names_unique :
    ∀ fs : FileState, Reachable fs → ∀ d : TOTPData, loadData fs = .ok d → namesNodup d := by
  intro fs hr
  induction hr with
  | init =>
    intro d hd
    cases hd
    simp [namesNodup, storeNames]
  | add fs name secret _ ih =>
    intro d hd
    cases hl : loadData fs with
    | fatal =>
      have hce : createEntry fs name secret = (.fatal, fs) := by
        simp [createEntry, hl]
      rw [hce] at hd
      exact ih d hd
    | ok d0 =>
      by_cases hany : d0.entries.any (fun e => e.name = name) = true
      · have hce : createEntry fs name secret = (.duplicate, fs) := by
          simp [createEntry, hl, hany]
        rw [hce] at hd
        exact ih d hd
      · have hce : createEntry fs name secret =
            (.created, .stored ⟨d0.entries ++ [⟨name, secret⟩]⟩) := by
          simp [createEntry, hl, hany, saveData]
        rw [hce] at hd
        injection hd with h
        subst h
        have hnodup : namesNodup d0 := ih d0 hl
        have hnotmem : name ∉ storeNames d0 := by
          simp only [Bool.not_eq_true, Bool.eq_false_iff, ne_eq, List.any_eq_true,
            decide_eq_true_eq] at hany
          simp only [storeNames, List.mem_map]
          rintro ⟨e, he, hname⟩
          exact hany ⟨e, he, hname⟩
        simp only [namesNodup, storeNames, List.map_append, List.map_cons, List.map_nil,
          List.nodup_append] at *
        refine ⟨hnodup, List.nodup_singleton name, ?_⟩
        intro x hx hx1
        simp only [List.mem_singleton] at hx1
        exact hnotmem (hx1 ▸ hx)
  | remove fs name _ ih =>
    intro d hd
    cases hl : loadData fs with
    | fatal =>
      have hre : removeEntry fs name = (.fatal, fs) := by
        simp [removeEntry, hl]
      rw [hre] at hd
      exact ih d hd
    | ok d0 =>
      by_cases hfound : (removeLoop name d0.entries).2 = true
      · have hre : removeEntry fs name =
            (.removed, .stored ⟨(removeLoop name d0.entries).1⟩) := by
          simp [removeEntry, hl, hfound, saveData]
        rw [hre] at hd
        injection hd with h
        subst h
        have hnodup : namesNodup d0 := ih d0 hl
        have hsub : ((removeLoop name d0.entries).1.map (fun e => e.name)).Sublist
            (d0.entries.map (fun e => e.name)) := by
          rw [removeLoop_eq]
          exact (List.filter_sublist d0.entries).map (fun e => e.name)
        exact List.Nodup.sublist hsub hnodup
      · have hre : removeEntry fs name = (.notFound, fs) := by
          simp [removeEntry, hl, hfound]
        rw [hre] at hd
        exact ih d hd

/-- Witness for claim C9: the store reached by one add from first use has
pairwise-distinct names. -/
theorem reachable_names_unique_witness :
    namesNodup ⟨[⟨"acme", "JBSWY3DPEHPK3PXP"⟩]⟩ :=
  reachable_names_unique (createEntry .absent "acme" "JBSWY3DPEHPK3PXP").2
    (Reachable.add .absent "acme" "JBSWY3DPEHPK3PXP" Reachable.init)
    ⟨[⟨"acme", "JBSWY3DPEHPK3PXP"⟩]⟩ rfl

set_option maxHeartbeats 4000000 in
/-- Claim C1: for every non-empty key and timestamp, `currentCode` is the
RFC-4226 HOTP value at counter floor(t/30) — HMAC-SHA1 over the 8-byte
big-endian counter, dynamic truncation (offset from the last nibble, top
bit masked), reduction mod 10^6, zero-padded 6-digit rendering — and the
engine reproduces the ten published RFC 4226 reference values. -/
theorem currentCode_is_rfc4226_hotp :
    (∀ (key : List Nat) (t : Nat), key ≠ [] →
      currentCode key t =
        zeroPad 6 (toString (dynamicTruncate (hmacSha1 key (toBytesBE 8 (t / 30))) % 10 ^ 6))) ∧
    computeCode rfc4226Key 0 6 = "755224" ∧
    computeCode rfc4226Key 1 6 = "287082" ∧
    computeCode rfc4226Key 2 6 = "359152" ∧
    computeCode rfc4226Key 3 6 = "969429" ∧
    computeCode rfc4226Key 4 6 = "338314" ∧
    computeCode rfc4226Key 5 6 = "254676" ∧
    computeCode rfc4226Key 6 6 = "287922" ∧
    computeCode rfc4226Key 7 6 = "162583" ∧
    computeCode rfc4226Key 8 6 = "399871" ∧
    computeCode rfc4226Key 9 6 = "520489" := by
  refine ⟨fun key t _ => rfl, ?_, ?_, ?_, ?_, ?_, ?_, ?_, ?_, ?_, ?_⟩ <;> rfl

/-- Witness for claim C1 at the RFC 4226 reference key and time 59. -/
theorem currentCode_is_rfc4226_hotp_witness :
    currentCode rfc4226Key 59 =
      zeroPad 6 (toString (dynamicTruncate (hmacSha1 rfc4226Key (toBytesBE 8 (59 / 30))) % 10 ^ 6)) :=
  currentCode_is_rfc4226_hotp.1 rfc4226Key 59 (by decide)

/-- Claim C2: `secondsRemaining` equals 30 - (t mod 30) and lies in
[1, 30]; at a step boundary (t mod 30 = 0) it is the full 30, and
`currentCode` there is the code for counter t/30 (the window that just
started), not the previous counter. -/
theorem secondsRemaining_range_and_boundary :
    (∀ t : Nat, secondsRemaining t = 30 - t % 30 ∧
      1 ≤ secondsRemaining t ∧ secondsRemaining t ≤ 30) ∧
    (∀ t : Nat, t % 30 = 0 → secondsRemaining t = 30) ∧
    (∀ (key : List Nat) (t : Nat), t % 30 = 0 →
      currentCode key t = computeCode key (t / 30) 6) := by
  refine ⟨fun t => ⟨rfl, ?_, ?_⟩, fun t h => ?_, fun key t _ => rfl⟩
  · simp only [secondsRemaining]
    omega
  · simp only [secondsRemaining]
    omega
  · simp only [secondsRemaining, h]

/-- Witness for claim C2 at the step boundary t = 60. -/
theorem secondsRemaining_range_and_boundary_witness :
    secondsRemaining 60 = 30 ∧
    currentCode rfc4226Key 60 = computeCode rfc4226Key (60 / 30) 6 :=
  ⟨secondsRemaining_range_and_boundary.2.1 60 rfl,
   secondsRemaining_range_and_boundary.2.2 rfc4226Key 60 rfl⟩

/-- Bytes of the base32 secret JBSWY3DPEHPK3PXP of the end-to-end
scenario. -/
def helloKey : List Nat :=
  [72, 101, 108, 108, 111, 33, 222, 173, 190, 239]

set_option maxHeartbeats 4000000 in
/-- Claim C3: `nextCode` equals `currentCode` at t + secondsRemaining t,
which is the code for counter floor(t/30) + 1; and in the end-to-end
scenario (secret JBSWY3DPEHPK3PXP at Unix time 59, counter 1) the CLI
lookup yields the HOTP value for counter 1 as the current code and the
HOTP value for counter 2 as the next code (with 30 - 59 mod 30 = 1 second
remaining, t = 59 being 29 seconds into the window that began at 30). -/
theorem nextCode_is_following_step :
    (∀ (key : List Nat) (t : Nat),
      nextCode key t = currentCode key (t + secondsRemaining t) ∧
      nextCode key t = computeCode key (t / 30 + 1) 6) ∧
    totpGenerateCode "JBSWY3DPEHPK3PXP" 59 = some (computeCode helloKey 1 6) ∧
    getCode (.stored ⟨[⟨"acme", "JBSWY3DPEHPK3PXP"⟩]⟩) "acme" 59 =
      .ok (computeCode helloKey 1 6) (secondsRemaining 59) (computeCode helloKey 2 6) := by
  refine ⟨fun key t => ⟨rfl, ?_⟩, by rfl, by rfl⟩
  have h : (t + secondsRemaining t) / 30 = t / 30 + 1 := by
    simp only [secondsRemaining]
    omega
  show currentCode key (t + secondsRemaining t) = _
  rw [currentCode, h]

/-- Claim C4 (evaluated at the failing input): on a store already holding
the name, the core create call reports a duplicate and leaves the durable
store unchanged, yet the HTTP POST handler answers 200 with the success
confirmation instead of a 4xx status. -/
theorem createEntryHTTP_duplicate_reports_success :
    createEntry (.stored ⟨[⟨"acme", "AAAA"⟩]⟩) "acme" "BBBB" =
      (.duplicate, .stored ⟨[⟨"acme", "AAAA"⟩]⟩) ∧
    createEntryHTTP (.stored ⟨[⟨"acme", "AAAA"⟩]⟩) (some ⟨"acme", "BBBB"⟩) =
      (some ⟨200, "TOTP entry \x27acme\x27 created successfully.\n"⟩,
        .stored ⟨[⟨"acme", "AAAA"⟩]⟩) := by
  constructor <;> rfl

/-- Claim C6: the core create accepts every secret string without decoding
it — the entry is stored verbatim — and a base32 decode failure surfaces
only when a code is derived, as the 500 branch of the GET handler. -/
theorem add_lenient_decode_strict :
    (∀ (d : TOTPData) (name secret : String),
      ¬ (∃ e ∈ d.entries, e.name = name) →
      createEntry (.stored d) name secret =
        (.created, .stored ⟨d.entries ++ [⟨name, secret⟩]⟩)) ∧
    (∀ (d : TOTPData) (name : String) (now : Nat) (entry : TOTPEntry),
      d.entries.find? (fun e => e.name = name) = some entry →
      base32Decode entry.secret = none →
      getCodeHTTP (.stored d) name now = .errGenerating ∧
      GetCodeResult.status .errGenerating = 500) := by
  constructor
  · intro d name secret h
    have hany : d.entries.any (fun e => e.name = name) = false := by
      simp only [Bool.eq_false_iff, ne_eq, List.any_eq_true, decide_eq_true_eq]
      exact h
    simp [createEntry, loadData, hany, saveData]
  · intro d name now entry hfind hdec
    refine ⟨?_, rfl⟩
    simp [getCodeHTTP, loadData, hfind, totpGenerateCode, hdec]

/-- Witness for claim C6: the undecodable secret 1 is accepted by the core
create and only fails, with the 500 branch, when its code is requested. -/
theorem add_lenient_decode_strict_witness :
    createEntry (.stored ⟨[]⟩) "acme" "1" = (.created, .stored ⟨[⟨"acme", "1"⟩]⟩) ∧
    getCodeHTTP (.stored ⟨[⟨"acme", "1"⟩]⟩) "acme" 59 = .errGenerating := by
  refine ⟨add_lenient_decode_strict.1 ⟨[]⟩ "acme" "1" (by decide), ?_⟩
  exact (add_lenient_decode_strict.2 ⟨[⟨"acme", "1"⟩]⟩ "acme" 59 ⟨"acme", "1"⟩
    (by decide) (by decide)).1

/-- Claim C7, counterexample: on a file that exists but cannot be parsed,
the load goes through `log.Fatalf` — the process logs and terminates
(`fatal`), and no store value is returned to the caller; the code has no
typed storage-error return path at all. -/
theorem loadData_corrupt_terminates :
    loadData .corrupt = .fatal ∧ loadData .corrupt ≠ .ok ⟨[]⟩ := by
  exact ⟨rfl, by decide⟩

/-- Claim C7 as amended: the load returns an empty store when the file is
absent (first-use bootstrap, not an error) and the stored data when it
parses, but an unreadable or corrupt file terminates the process via
`log.Fatalf` rather than returning a typed error. -/
theorem loadData_absent_empty_corrupt_fatal :
    loadData .absent = .ok ⟨[]⟩ ∧
    (∀ d : TOTPData, loadData (.stored d) = .ok d) ∧
    loadData .corrupt = .fatal :=
  ⟨rfl, fun _ => rfl, rfl⟩

/-- Claim C8, counterexample: during `saveData` a reader can observe the
truncated file — a state that is neither the prior durable store nor the
new one — because `os.WriteFile` truncates in place before writing. -/
theorem saveData_observable_truncation :
    FileState.corrupt ∈ saveDataTrace (.stored ⟨[⟨"acme", "AAAA"⟩]⟩) ⟨[]⟩ ∧
    FileState.corrupt ≠ FileState.stored ⟨[⟨"acme", "AAAA"⟩]⟩ ∧
    FileState.corrupt ≠ FileState.stored ⟨[]⟩ := by
  refine ⟨?_, by decide, by decide⟩
  simp [saveDataTrace, saveData]

/-- Claim C8 as amended: `saveData` rewrites `totp.json` in place —
truncate, then write — so its observable intermediate state is a
truncated (corrupt) file; a save interrupted there loses the prior
durable state, and no write-to-temp-then-rename atomic replace is
performed.  A completed save does end in exactly the new store. -/
theorem saveData_in_place_trace :
    ∀ (old : FileState) (d : TOTPData),
      saveDataTrace old d = [old, .corrupt, .stored d] ∧
      saveData old d = .stored d :=
  fun _ _ => ⟨rfl, rfl⟩

/-- Claim C10, counterexample: under the schedule where both adds load the
empty store before either saves, request a's update is lost — the final
store holds only request b's entry, with no entry named a. -/
theorem twoAdds_lost_update :
    twoAdds [.a, .b, .a, .b] .idle .idle .absent = .stored ⟨[⟨"b", "sb"⟩]⟩ ∧
    ([TOTPEntry.mk "b" "sb"].any (fun e => e.name = "a")) = false := by
  constructor <;> rfl

/-- Claim C10 as amended: the server takes no lock around the
load-mutate-save cycle, so the outcome of two concurrent adds with
distinct names depends on the interleaving of their file accesses:
serialized schedules leave both entries, while schedules in which both
requests load before either saves keep only the entry of the request
that saves last. -/
theorem twoAdds_schedule_dependent :
    twoAdds [.a, .a, .b, .b] .idle .idle .absent =
      .stored ⟨[⟨"a", "sa"⟩, ⟨"b", "sb"⟩]⟩ ∧
    twoAdds [.b, .b, .a, .a] .idle .idle .absent =
      .stored ⟨[⟨"b", "sb"⟩, ⟨"a", "sa"⟩]⟩ ∧
    twoAdds [.a, .b, .a, .b] .idle .idle .absent = .stored ⟨[⟨"b", "sb"⟩]⟩ ∧
    twoAdds [.a, .b, .b, .a] .idle .idle .absent = .stored ⟨[⟨"a", "sa"⟩]⟩ := by
  refine ⟨rfl, rfl, rfl, rfl⟩

end Auther
